import Mathlib

/-
  Verification of the spikeanalysis core against its specification.

  The development shallowly embeds the two source files
    src/spikeanalysis/analysis_utils/latency_functions.py
    src/spikeanalysis/spike_analysis.py
  into Lean.  Conventions used throughout:

  * float values are modelled as real numbers (`ℝ`);
  * `NaN` cells are modelled as `Option ℝ` with `none` standing for NaN;
  * a Python runtime error (an uncaught exception) is modelled with `Except PyError`
    or, for the numba kernels, with an outer `Option` where `none` marks the error;
  * numpy boolean-mask indexing `xs[mask]` is modelled by `maskSelect`;
  * spike and event times handled as raw sample counts in the source are `ℤ`.
-/

namespace SpikeAnalysisModel

/-- Errors a call can raise, by Python exception class: a failed `assert`, an
explicitly raised `Exception` with its message, an attribute lookup failure on
`self`, and use of a local variable that was never assigned. -/
inductive PyError where
  | assertionError (msg : String)
  | exceptionError (msg : String)
  | attributeError (attr : String)
  | unboundLocalError (var : String)
  deriving DecidableEq, Repr

/-- Numpy boolean-mask selection `xs[p.(keys)]`: keeps the entries of `xs` whose
matching entry of `keys` satisfies `p` (pairs beyond the shorter list are dropped;
the arrays always have equal length at the call sites). -/
def maskSelect {α β : Type} (p : β → Prop) [DecidablePred p] : List α → List β → List α
  | x :: xs, k :: ks => if p k then x :: maskSelect p xs ks else maskSelect p xs ks
  | _, _ => []

/-- `int(x)` / `np.int64(x)` on a float: truncation toward zero. -/
noncomputable def truncToInt (x : ℝ) : ℤ :=
  if 0 ≤ x then ⌊x⌋ else -⌊-x⌋

/-- `np.mean` of a 1-D array: sum divided by length (junk value `0/0 = 0` on the
empty array, which makes the original print NaN and is excluded by hypotheses). -/
noncomputable def npMean (xs : List ℝ) : ℝ :=
  xs.sum / xs.length

/-- `np.sort(np.unique(xs))` for natural-number labels: the sorted list of the
distinct values occurring in `xs`. -/
def sortedUnique (xs : List ℕ) : List ℕ :=
  (List.range (xs.foldr max 0 + 1)).filter (fun v => xs.contains v)

/-!  ## analysis_utils/latency_functions.py  -/

/-- `LOOKUP_TABLE`: the int64 array of the factorials of 0..20
(latency_functions.py lines 50-75). -/
def LOOKUP_TABLE : List ℤ :=
  [1, 1, 2, 6, 24, 120, 720, 5040, 40320, 362880, 3628800, 39916800,
   479001600, 6227020800, 87178291200, 1307674368000, 20922789888000,
   355687428096000, 6402373705728000, 121645100408832000, 2432902008176640000]

/-- `factorial(k)` (latency_functions.py lines 93-100): table lookup for
`k <= 20`, `math.gamma(k + 1)` otherwise. -/
noncomputable def factorial (k : ℕ) : ℝ :=
  if k ≤ 20 then ((LOOKUP_TABLE.getD k 0 : ℤ) : ℝ) else Real.Gamma ((k : ℝ) + 1)

/-- `poisson_pdf(k, mu)` (latency_functions.py lines 78-81). -/
noncomputable def poisson_pdf (k : ℕ) (mu : ℝ) : ℝ :=
  (mu ^ k) / factorial k * Real.exp (-mu)

/-- `poisson_cdf(k, mu)` (latency_functions.py lines 84-90): the sum of the pdf
over `range(k + 1)`, which is empty when `k` is negative. -/
noncomputable def poisson_cdf (k : ℤ) (mu : ℝ) : ℝ :=
  ∑ i ∈ Finset.range (k + 1).toNat, poisson_pdf i mu

/-- The survival probability computed at line 13-16 of latency_functions.py for
one trial row and cumulative bin index `n`:
`1 - poisson_cdf(int(sum(row[: n + 1]) - 1), bsl_fr * ((n + 1) * time_bin_size))`. -/
noncomputable def survival_prob (bsl_fr : ℝ) (row : List ℕ) (n : ℕ) (time_bin_size : ℝ) : ℝ :=
  1 - poisson_cdf (((row.take (n + 1)).sum : ℤ) - 1)
        (bsl_fr * (((n + 1 : ℕ) : ℝ) * time_bin_size))

open Classical in
/-- The value of the loop variable `n_bin` after `for n_bin in range(bound): ...
if P(n_bin): break`: the least index satisfying `P` if any, else the last index
`bound - 1`. -/
noncomputable def breakIndex (P : ℕ → Prop) (bound : ℕ) : ℕ :=
  if h : ∃ n, n < bound ∧ P n then Nat.find h else bound - 1

open Classical in
/-- `latency_core_stats(bsl_fr, firing_data, time_bin_size)`
(latency_functions.py lines 7-25).  The result array starts as zeros, one cell
per trial.  The final `if n_bin == shape[1] - 2 ... else ...` block sits outside
the `for trial` loop in the source, so it runs once, with `trial` and `n_bin`
holding their values from the last trial; only the last trial's cell is ever
written.  With no trial or fewer than two bins the loop body never runs and the
trailing read of `n_bin` raises UnboundLocalError, modelled by `none`. -/
noncomputable def latency_core_stats (bsl_fr : ℝ) (firing_data : List (List ℕ))
    (time_bin_size : ℝ) : Option (List (Option ℝ)) :=
  let B := (firing_data.headD []).length
  if firing_data = [] ∨ B < 2 then none
  else
    let lastTrial := firing_data.getLastD []
    let n_bin := breakIndex
      (fun n => survival_prob bsl_fr lastTrial n time_bin_size ≤ 10e-6) (B - 1)
    let lastVal : Option ℝ :=
      if n_bin = B - 2 then none else some (((n_bin + 1 : ℕ) : ℝ) * time_bin_size)
    some (List.replicate (firing_data.length - 1) (some (0 : ℝ)) ++ [lastVal])

/-- The index of the first non-zero count of a row: models
`np.min(np.nonzero(row)[0])` of latency_functions.py line 36-40 (`np.nonzero`
lists the indices of the non-zero entries in ascending order, so their minimum
is the first such index), `none` when the row has no non-zero entry. -/
def first_nonzero_idx : List ℕ → Option ℕ
  | [] => none
  | c :: cs => if c ≠ 0 then some 0 else (first_nonzero_idx cs).map (· + 1)

/-- The body of the per-trial loop of `latency_median` (latency_functions.py
lines 35-40): NaN when the trial has no spike, `(min_nonzero_index + 1) *
time_bin_size` otherwise. -/
noncomputable def latency_median_trial (row : List ℕ) (time_bin_size : ℝ) : Option ℝ :=
  match first_nonzero_idx row with
  | none => none
  | some i => some (((i + 1 : ℕ) : ℝ) * time_bin_size)

/-- `latency_median(firing_counts, time_bin_size)` (latency_functions.py
lines 29-42): the per-trial first-spike latency. -/
noncomputable def latency_median (firing_counts : List (List ℕ)) (time_bin_size : ℝ) :
    List (Option ℝ) :=
  firing_counts.map (fun row => latency_median_trial row time_bin_size)

/-!  ## Helper lemmas about the latency kernels  -/

lemma first_nonzero_idx_of_all_zero (row : List ℕ) (h : ∀ c ∈ row, c = 0) :
    first_nonzero_idx row = none := by
  induction row with
  | nil => rfl
  | cons c cs ih =>
    have hc : c = 0 := h c (List.mem_cons_self c cs)
    rw [first_nonzero_idx, if_neg (by simp [hc]),
      ih (fun d hd => h d (List.mem_cons_of_mem c hd))]
    rfl

lemma first_nonzero_idx_of_first (row : List ℕ) (i : ℕ) (c : ℕ)
    (hc : row.get? i = some c) (hne : c ≠ 0) (hbefore : ∀ j, j < i → row.get? j = some 0) :
    first_nonzero_idx row = some i := by
  induction row generalizing i with
  | nil => simp at hc
  | cons d ds ih =>
    cases i with
    | zero =>
      simp only [List.get?] at hc
      obtain rfl : d = c := by injection hc
      rw [first_nonzero_idx, if_pos hne]
    | succ i =>
      have hd : d = 0 := by
        have := hbefore 0 (Nat.succ_pos i)
        simpa using this
      rw [first_nonzero_idx, if_neg (by simp [hd]),
        ih i (by simpa using hc)
          (fun j hj => by simpa using hbefore (j + 1) (Nat.succ_lt_succ hj))]
      rfl

lemma latency_median_get (data : List (List ℕ)) (tbs : ℝ) (t : ℕ) (row : List ℕ)
    (hrow : data.get? t = some row) :
    (latency_median data tbs).get? t = some (latency_median_trial row tbs) := by
  rw [latency_median, List.get?_map, hrow, Option.map_some']

lemma survival_prob_zero_row (b tbs : ℝ) (m n : ℕ) :
    survival_prob b (List.replicate m 0) n tbs = 1 := by
  rw [survival_prob, List.take_replicate, poisson_cdf]
  simp

lemma breakIndex_of_not (P : ℕ → Prop) (bound : ℕ) (h : ∀ n, ¬ P n) :
    breakIndex P bound = bound - 1 := by
  rw [breakIndex, dif_neg]
  rintro ⟨n, -, hp⟩
  exact h n hp

/-!  ## Claim theorems for latency_functions.py  -/

/-- C1 (code bug witnessed): on two identical all-zero trials, where the claim
says both latencies are NaN, `latency_core_stats` returns `0.0` for trial 0 and
NaN only for trial 1, because the NaN-or-latency assignment sits outside the
per-trial loop and is applied to the last trial alone. -/
theorem latency_core_stats_only_last_trial_written :
    latency_core_stats 3 [[0, 0, 0], [0, 0, 0]] 1 = some [some 0, none] := by
  have hrep : ([0, 0, 0] : List ℕ) = List.replicate 3 0 := rfl
  have hnone : ∀ n, ¬ (survival_prob 3 ([0, 0, 0] : List ℕ) n 1 ≤ 10e-6) := by
    intro n
    rw [hrep, survival_prob_zero_row]
    norm_num
  rw [latency_core_stats]
  simp only [List.headD, List.length_cons, List.length_nil, List.getLastD]
  rw [if_neg (by simp)]
  rw [show ([[0, 0, 0], [0, 0, 0]] : List (List ℕ)).getLast (by simp) = [0, 0, 0] from rfl]
  rw [breakIndex_of_not _ _ hnone]
  norm_num

/-- C2 (confirmed): for each trial row of the binned input, `latency_median`
returns NaN when the row has no spike, and `(i + 1) * time_bin_size` when `i`
is the index of the first non-zero-count bin. -/
theorem latency_median_first_spike (data : List (List ℕ)) (tbs : ℝ) (t : ℕ) (row : List ℕ)
    (hrow : data.get? t = some row) :
    ((∀ c ∈ row, c = 0) → (latency_median data tbs).get? t = some none) ∧
    (∀ i c, row.get? i = some c → c ≠ 0 → (∀ j, j < i → row.get? j = some 0) →
      (latency_median data tbs).get? t = some (some (((i + 1 : ℕ) : ℝ) * tbs))) := by
  constructor
  · intro hz
    rw [latency_median_get data tbs t row hrow, latency_median_trial,
      first_nonzero_idx_of_all_zero row hz]
  · intro i c hc hne hbefore
    rw [latency_median_get data tbs t row hrow, latency_median_trial,
      first_nonzero_idx_of_first row i c hc hne hbefore]

/-- Witness for C2, with the spec's concrete check: first spike at bin index 3
with 10 ms bins gives `(3 + 1) * 10 ms = 0.04 s`, i.e. exactly 40 ms after the
`* 1000` scaling applied by `latencies`. -/
theorem latency_median_first_spike_witness :
    (latency_median [[0, 0, 0, 1]] (10 / 1000)).get? 0
        = some (some (((3 + 1 : ℕ) : ℝ) * (10 / 1000)))
      ∧ 1000 * (((3 + 1 : ℕ) : ℝ) * (10 / 1000)) = 40 := by
  refine ⟨(latency_median_first_spike [[0, 0, 0, 1]] (10 / 1000) 0 [0, 0, 0, 1] rfl).2
      3 1 rfl (by decide) (by decide), by norm_num⟩

/-- C8 (confirmed): `factorial` returns the exact integer factorial via the
lookup table for `k ≤ 20` and `Gamma(k + 1)` otherwise. -/
theorem factorial_lookup_gamma (k : ℕ) :
    (k ≤ 20 → factorial k = (Nat.factorial k : ℝ)) ∧
    (20 < k → factorial k = Real.Gamma ((k : ℝ) + 1)) := by
  constructor
  · intro hk
    have hlook : ∀ m, m ≤ 20 → LOOKUP_TABLE.getD m 0 = (Nat.factorial m : ℤ) := by decide
    rw [factorial, if_pos hk, hlook k hk]
    norm_cast
  · intro hk
    rw [factorial, if_neg (by omega)]

/-- Witness for C8 at `k = 5` (lookup side) and `k = 21` (Gamma side). -/
theorem factorial_lookup_gamma_witness :
    factorial 5 = (Nat.factorial 5 : ℝ) ∧ factorial 21 = Real.Gamma (((21 : ℕ) : ℝ) + 1) :=
  ⟨(factorial_lookup_gamma 5).1 (by norm_num), (factorial_lookup_gamma 21).2 (by norm_num)⟩

/-- C10 (confirmed): any non-NaN latency produced by `latency_median` is at
least one full bin width (in particular it is never 0 when the bin width is
positive), and a trial whose very first bin holds a spike gets exactly one bin
width. -/
theorem latency_median_lower_bound (data : List (List ℕ)) (tbs : ℝ) (t : ℕ) (x : ℝ)
    (hbin : 0 < tbs) (hx : (latency_median data tbs).get? t = some (some x)) :
    tbs ≤ x ∧ x ≠ 0 ∧
      (∀ row c, data.get? t = some row → row.get? 0 = some c → c ≠ 0 → x = tbs) := by
  rw [latency_median, List.get?_map] at hx
  obtain ⟨row, hrow, htrial⟩ : ∃ row, data.get? t = some row
      ∧ latency_median_trial row tbs = some x := by
    cases hdata : data.get? t with
    | none => rw [hdata] at hx; simp at hx
    | some r =>
      rw [hdata] at hx
      exact ⟨r, rfl, by injection hx⟩
  rw [latency_median_trial] at htrial
  cases hfi : first_nonzero_idx row with
  | none => rw [hfi] at htrial; simp at htrial
  | some i =>
    rw [hfi] at htrial
    obtain rfl : ((i + 1 : ℕ) : ℝ) * tbs = x := by injection htrial
    refine ⟨?_, ?_, ?_⟩
    · have h1 : (1 : ℝ) ≤ ((i + 1 : ℕ) : ℝ) := by exact_mod_cast Nat.succ_le_succ (Nat.zero_le i)
      nlinarith
    · have h1 : (0 : ℝ) < ((i + 1 : ℕ) : ℝ) := by positivity
      positivity
    · intro row' c hrow' hc hne
      obtain rfl : row = row' := by rw [hrow] at hrow'; injection hrow'
      have : first_nonzero_idx row = some 0 :=
        first_nonzero_idx_of_first row 0 c hc hne (fun j hj => absurd hj (Nat.not_lt_zero j))
      rw [hfi] at this
      obtain rfl : i = 0 := by injection this
      norm_num

/-- Witness for C10: a single trial with a spike in its first bin. -/
theorem latency_median_lower_bound_witness :
    (1 : ℝ) ≤ ((0 + 1 : ℕ) : ℝ) * 1 ∧ ((0 + 1 : ℕ) : ℝ) * 1 ≠ 0 ∧
      (∀ row c, ([[1]] : List (List ℕ)).get? 0 = some row → row.get? 0 = some c → c ≠ 0 →
        ((0 + 1 : ℕ) : ℝ) * 1 = 1) :=
  latency_median_lower_bound [[1]] 1 0 (((0 + 1 : ℕ) : ℝ) * 1) (by norm_num) rfl

/-!  ## spike_analysis.py: session state and derivation stages

The `SpikeAnalysis` object is modelled for a session holding a single stimulus
(dictionaries of size one in the source); `psths` and `NUM_STIM` are `Option`s
because the source creates those attributes only when `get_raw_psth` runs, and
looking them up earlier raises `AttributeError`. -/

/-- The per-stimulus store written by `get_raw_psth`: the count tensor
(cluster × event × bin) and the bin centers in seconds. -/
structure PsthStore where
  psth : List (List (List ℕ))
  bins : List ℝ

/-- The attributes of a `SpikeAnalysis` object used by the embedded methods,
for a session with one stimulus. -/
structure SessionState where
  sampling_rate : ℝ
  raw_spike_times : List ℤ
  spike_clusters : List ℕ
  cluster_ids : List ℕ
  events : List ℤ
  trial_groups : List ℕ
  psths : Option PsthStore
  NUM_STIM : Option ℕ

/-- `np.min` of an integer array (callers guarantee a non-empty array; the
source would raise on an empty one). -/
def npMinInt (xs : List ℤ) : ℤ :=
  match xs with
  | [] => 0
  | x :: r => r.foldl min x

/-- `np.max` of an integer array (non-empty at the call sites). -/
def npMaxInt (xs : List ℤ) : ℤ :=
  match xs with
  | [] => 0
  | x :: r => r.foldl max x

/-- Sequencing of a list of `Option`s: `some` of the list of values when every
entry is present. -/
def optionSeqList {α : Type} : List (Option α) → Option (List α)
  | [] => some []
  | x :: xs =>
    match x, optionSeqList xs with
    | some v, some vs => some (v :: vs)
    | _, _ => none

/-- Left-to-right effectful map over `Except`, stopping at the first error
(the behaviour of a Python `for` loop whose body can raise). -/
def exceptMapList {ε α β : Type} (f : α → Except ε β) : List α → Except ε (List β)
  | [] => .ok []
  | x :: xs =>
    match f x with
    | .error e => .error e
    | .ok y =>
      match exceptMapList f xs with
      | .error e => .error e
      | .ok ys => .ok (y :: ys)

/-- The index of event `e` within its own trial group, i.e. how many earlier
events carry the same trial-group label: the position at which a numpy masked
write `out[mask] = vals` takes event `e`'s value from `vals`. -/
def posInGroup (trials : List ℕ) (e : ℕ) : ℕ :=
  ((trials.take e).filter (fun t => t == trials.getD e 0)).length

/-- Modelled from the spec: `hf.spike_times_to_bins` (from
`analysis_utils/histogram_functions.py`, which is not part of src).  Spec 4.2:
for each event, spikes are counted into contiguous half-open (left-closed) bins
of width `time_bin_size` covering `[event + window_start, event + window_end)`;
all quantities are in raw samples. -/
def spike_times_to_bins (spikes : List ℤ) (events : List ℤ) (time_bin_size : ℤ)
    (window_start window_end : ℤ) : List (List ℕ) :=
  let n_bins := ((window_end - window_start) / time_bin_size).toNat
  events.map (fun ev =>
    (List.range n_bins).map (fun b =>
      (spikes.filter (fun s =>
        decide (ev + window_start + b * time_bin_size ≤ s ∧
          s < ev + window_start + (b + 1) * time_bin_size))).length))

/-- Modelled from the spec: the bin-center grid `bins_sub` returned alongside
the counts by `hf.spike_times_to_bins` (absent from src).  Spec 3 (BinGrid):
bin `b`'s center is `window_start + b * bin_size + bin_size / 2`, here in raw
samples as a float. -/
noncomputable def bins_sub (time_bin_size window_start window_end : ℤ) : List ℝ :=
  (List.range ((window_end - window_start) / time_bin_size).toNat).map
    (fun b => (window_start : ℝ) + (b : ℝ) * (time_bin_size : ℝ) + (time_bin_size : ℝ) / 2)

/-- The number of (cluster, event, bin) cells of a PSTH tensor holding more
than one spike: the quantity the spec says the binning engine reports. -/
def multispikeCellCount (psth : List (List (List ℕ))) : ℕ :=
  (psth.map (fun cl =>
    (cl.map (fun row => (row.filter (fun cell => decide (1 < cell))).length)).sum)).sum

/-- `get_raw_psth(window, time_bin_ms)` (spike_analysis.py lines 141-222) for a
single-stimulus session.  Returns the updated session (with `psths` and
`NUM_STIM` now populated) together with the `multispike_bin` diagnostic that
the source prints: a counter incremented once per cluster whose count array has
any cell above 1 (lines 211-212).  The count is only reported, never an error:
the PSTH is stored regardless. -/
noncomputable def get_raw_psth (st : SessionState) (window : ℝ × ℝ) (time_bin_ms : ℝ) :
    Except PyError (SessionState × ℕ) :=
  if ¬ (1000 / st.sampling_rate ≤ time_bin_ms) then
    .error (.assertionError "time bin size is less than sampling rate of recording")
  else
    let time_bin_size := truncToInt (time_bin_ms / 1000 * st.sampling_rate)
    let window_start := truncToInt (window.1 * st.sampling_rate)
    let window_end := truncToInt (window.2 * st.sampling_rate)
    let min_time := npMinInt st.events + window_start
    let max_time := npMaxInt st.events + window_end
    let keep := fun (s : ℤ) => min_time < s ∧ s < max_time
    let current_spike_clusters := maskSelect keep st.spike_clusters st.raw_spike_times
    let current_spikes := maskSelect keep st.raw_spike_times st.raw_spike_times
    let psth := st.cluster_ids.map (fun cluster =>
      spike_times_to_bins
        (maskSelect (fun c => c = cluster) current_spikes current_spike_clusters)
        st.events time_bin_size window_start window_end)
    let multispike_bin := psth.countP (fun arr =>
      arr.any (fun row => row.any (fun cell => decide (1 < cell))))
    let bins := (bins_sub time_bin_size window_start window_end).map
      (fun b => b / st.sampling_rate)
    .ok ({ st with psths := some { psth := psth, bins := bins }, NUM_STIM := some 1 },
      multispike_bin)

/-- Modelled from the spec: `hf.convert_to_new_bins` (from
`analysis_utils/histogram_functions.py`, absent from src).  Spec 4.1: pools
groups of `old_bin_count / new_bin_count` contiguous original bins by
summation; trailing remainder bins are truncated. -/
def convert_to_new_bins (psth : List (List (List ℕ))) (new_bin_number : ℕ) :
    List (List (List ℕ)) :=
  psth.map (fun cl => cl.map (fun row =>
    let g := row.length / new_bin_number
    (List.range new_bin_number).map (fun b => ((row.drop (b * g)).take g).sum)))

/-- Modelled from the spec: `hf.convert_bins` (absent from src).  Spec 4.1:
each pooled group of centers is represented by one center; the spec leaves the
first-element-vs-mean convention open and we take the first element. -/
noncomputable def convert_bins (bins : List ℝ) (new_bin_number : ℕ) : List ℝ :=
  let g := bins.length / new_bin_number
  (List.range new_bin_number).map (fun b => bins.getD (b * g) 0)

/-- Modelled from the spec: `gaussian_smoothing` (from `utils.py`, absent from
src).  Spec 4.3: the rate trace is convolved with a normalized Gaussian kernel
whose standard deviation in bins derives from the requested smoothing time and
the bin size.  The spec does not pin the discrete kernel down further, and no
verified claim depends on these values. -/
noncomputable def gaussian_smoothing (xs : List ℝ) (bin_size : ℝ) (std : ℝ) : List ℝ :=
  let n := xs.length
  let w := fun (i j : ℕ) =>
    Real.exp (-(((i : ℝ) - (j : ℝ)) * ((i : ℝ) - (j : ℝ))) / (2 * std * std))
  (List.range n).map (fun i =>
    (((List.range n).map (fun j => w i j * xs.getD j 0)).sum)
      / (((List.range n).map (fun j => w i j)).sum) * bin_size / bin_size)

/-- The per-trial-group firing-rate tensors produced by `get_raw_firing_rate`:
the scattered per-event rates, the per-group mean traces and the masked bins. -/
structure FiringRateResult where
  raw_firing_rate : List (List (List ℝ))
  mean_firing_rate : List (List (List ℝ))
  fr_bins : List ℝ

/-- Pointwise mean across the trial axis: `np.nanmean(fr_trial, axis=1)` for
plain float data (no NaN arises on the claim-relevant paths). -/
noncomputable def meanRows (rows : List (List ℝ)) : List ℝ :=
  rows.transpose.map npMean

open Classical in
/-- `get_raw_firing_rate(time_bin_ms, fr_window, mode, bsl_window, sm_time_ms)`
(spike_analysis.py lines 224-351) for a single-stimulus session and scalar
parameters (`verify_window_format` is the identity on an already well-formed
single window and is inlined away).  The source guards `smooth` with an assert
but never validates that `bsl-subtracted` received a baseline window: with no
baseline the local `mean_fr` is simply never assigned, and the subtraction loop
(lines 343-345) raises UnboundLocalError on its first iteration. -/
noncomputable def get_raw_firing_rate (st : SessionState) (time_bin_ms : ℝ)
    (fr_window : ℝ × ℝ) (mode : String) (bsl_window : Option (ℝ × ℝ))
    (sm_time_ms : Option ℝ) : Except PyError FiringRateResult :=
  match st.psths with
  | none => .error (.exceptionError "Run get_raw_psth before running z_score_data")
  | some store =>
    let time_bin_current := time_bin_ms / 1000
    if bsl_window.isSome ∧ mode ≠ "bsl-subtracted" then
      .error (.assertionError "only give baseline for baseline subtracted")
    else if mode = "smooth" ∧ sm_time_ms = none then
      .error (.assertionError "to smooth data please give the sm_time_ms")
    else
      let baseline := bsl_window.isSome
      let bsl_current := bsl_window.getD (0, 0)
      let trials := st.trial_groups
      let trial_set := sortedUnique trials
      let bin_size := store.bins.getD 1 0 - store.bins.getD 0 0
      let n_bins := store.bins.length
      let new_bin_number := truncToInt ((n_bins : ℝ) * bin_size / time_bin_current)
      let psth := if new_bin_number ≠ (n_bins : ℤ)
        then convert_to_new_bins store.psth new_bin_number.toNat else store.psth
      let bins := if new_bin_number ≠ (n_bins : ℤ)
        then convert_bins store.bins new_bin_number.toNat else store.bins
      let bslMask := fun (b : ℝ) => bsl_current.1 ≤ b ∧ b ≤ bsl_current.2
      let frMask := fun (b : ℝ) => fr_window.1 ≤ b ∧ b ≤ fr_window.2
      let bsl_psth := psth.map (fun cl => cl.map (fun row => maskSelect bslMask row bins))
      let fr_psth := psth.map (fun cl => cl.map (fun row => maskSelect frMask row bins))
      let groupRates := fun (trial : ℕ) =>
        let bsl_trial := bsl_psth.map (fun cl => maskSelect (fun t => t = trial) cl trials)
        let mean_fr := bsl_trial.map (fun cl =>
          npMean (cl.map (fun row => ((row.sum : ℕ) : ℝ))) / (bsl_current.2 - bsl_current.1))
        let fr_trial := fr_psth.map (fun cl =>
          (maskSelect (fun t => t = trial) cl trials).map (fun row =>
            row.map (fun cell => ((cell : ℕ) : ℝ) / time_bin_current)))
        if mode = "raw" then
          Except.ok fr_trial
        else if mode = "smooth" then
          let sm_std0 := ((truncToInt (1 / ((bins.getD 1 0 - bins.getD 0 0) * 1000))) : ℝ)
            * sm_time_ms.getD 0
          let sm_std := if ∃ k : ℤ, sm_std0 = 2 * (k : ℝ) then sm_std0 + 1 else sm_std0
          Except.ok (fr_trial.map (fun cl => cl.map (fun row =>
            gaussian_smoothing row (bins.getD 1 0 - bins.getD 0 0) sm_std)))
        else
          if baseline then
            Except.ok ((fr_trial.zip mean_fr).map (fun p =>
              p.1.map (fun row => row.map (fun cell => cell - p.2))))
          else
            -- `mean_fr` was never assigned: the `fr_trial[row] - mean_fr[row]`
            -- loop raises on its first use of the name
            Except.error (.unboundLocalError "mean_fr")
      match exceptMapList groupRates trial_set with
      | .error e => .error e
      | .ok groups =>
        .ok { raw_firing_rate := (List.range psth.length).map (fun c =>
                (List.range trials.length).map (fun e =>
                  ((groups.getD (trial_set.findIdx (fun v => v == trials.getD e 0)) []).getD
                    c []).getD (posInGroup trials e) [])),
              mean_firing_rate := (List.range psth.length).map (fun c =>
                groups.map (fun gr => meanRows (gr.getD c []))),
              fr_bins := maskSelect frMask bins bins }

/-- `np.std` of a 1-D array: the population standard deviation. -/
noncomputable def npStd (xs : List ℝ) : ℝ :=
  Real.sqrt (npMean (xs.map (fun x => (x - npMean xs) ^ 2)))

open Classical in
/-- Modelled from the spec: `hf.z_score_values` (from
`analysis_utils/histogram_functions.py`, absent from src).  Spec 4.4: each
response-window bin rate is standardized as `(rate - mean) / std` per cluster;
when the baseline std is 0 the result is NaN rather than an infinity. -/
noncomputable def z_score_values (z_trial : List (List (List ℝ)))
    (mean_fr std_fr : List ℝ) : List (List (List (Option ℝ))) :=
  (List.range z_trial.length).map (fun c =>
    (z_trial.getD c []).map (fun row => row.map (fun cell =>
      if std_fr.getD c 0 = 0 then none
      else some ((cell - mean_fr.getD c 0) / std_fr.getD c 0))))

/-- `np.nanmean` of a 1-D array with NaNs: the mean of the non-NaN entries,
NaN when every entry is NaN. -/
noncomputable def nanmean (xs : List (Option ℝ)) : Option ℝ :=
  let vals := xs.filterMap id
  if vals.length = 0 then none else some (vals.sum / vals.length)

/-- Pointwise `np.nanmean` across the trial axis of one cluster's z-scores. -/
noncomputable def nanmeanRows (rows : List (List (Option ℝ))) : List (Option ℝ) :=
  rows.transpose.map nanmean

/-- The tensors stored by `z_score_data`. -/
structure ZScoreResult where
  z_scores : List (List (List (Option ℝ)))
  raw_zscores : List (List (List (Option ℝ)))
  z_bins : List ℝ

open Classical in
/-- `z_score_data(time_bin_ms, bsl_window, z_window)` (spike_analysis.py lines
353-450) for a single-stimulus session and scalar parameters. -/
noncomputable def z_score_data (st : SessionState) (time_bin_ms : ℝ)
    (bsl_window z_window : ℝ × ℝ) : Except PyError ZScoreResult :=
  match st.psths with
  | none => .error (.exceptionError "Run get_raw_psth before running z_score_data")
  | some store =>
    let time_bin_current := time_bin_ms / 1000
    let trials := st.trial_groups
    let trial_set := sortedUnique trials
    let bin_size := store.bins.getD 1 0 - store.bins.getD 0 0
    let n_bins := store.bins.length
    let new_bin_number := truncToInt ((n_bins : ℝ) * bin_size / time_bin_current)
    let psth := if new_bin_number ≠ (n_bins : ℤ)
      then convert_to_new_bins store.psth new_bin_number.toNat else store.psth
    let bins := if new_bin_number ≠ (n_bins : ℤ)
      then convert_bins store.bins new_bin_number.toNat else store.bins
    let bslMask := fun (b : ℝ) => bsl_window.1 ≤ b ∧ b ≤ bsl_window.2
    let zMask := fun (b : ℝ) => z_window.1 ≤ b ∧ b ≤ z_window.2
    let bsl_psth := psth.map (fun cl => cl.map (fun row => maskSelect bslMask row bins))
    let z_psth := psth.map (fun cl => cl.map (fun row => maskSelect zMask row bins))
    let groupZ := fun (trial : ℕ) =>
      let bsl_trial := bsl_psth.map (fun cl => maskSelect (fun t => t = trial) cl trials)
      let mean_fr := bsl_trial.map (fun cl =>
        npMean (cl.map (fun row => ((row.sum : ℕ) : ℝ))) / (bsl_window.2 - bsl_window.1))
      let std_fr := bsl_trial.map (fun cl =>
        npStd (cl.map (fun row => ((row.sum : ℕ) : ℝ))) / (bsl_window.2 - bsl_window.1))
      let z_trial := z_psth.map (fun cl =>
        (maskSelect (fun t => t = trial) cl trials).map (fun row =>
          row.map (fun cell => ((cell : ℕ) : ℝ) / time_bin_current)))
      z_score_values z_trial mean_fr std_fr
    let groups := trial_set.map groupZ
    .ok { z_scores := (List.range psth.length).map (fun c =>
            groups.map (fun gz => nanmeanRows (gz.getD c []))),
          raw_zscores := (List.range psth.length).map (fun c =>
            (List.range trials.length).map (fun e =>
              ((groups.getD (trial_set.findIdx (fun v => v == trials.getD e 0)) []).getD
                c []).getD (posInGroup trials e) [])),
          z_bins := maskSelect zMask bins bins }

open Classical in
/-- The per-cluster baseline firing rate `bsl_values[idx]` of `latencies`
(spike_analysis.py lines 511-518): per trial, the counts falling in baseline
bins are summed and divided by the baseline duration, and the mean is taken
over every trial of the stimulus. -/
noncomputable def bsl_values (psth : List (List (List ℕ))) (bins : List ℝ)
    (b0 b1 : ℝ) (c : ℕ) : ℝ :=
  npMean ((psth.getD c []).map (fun row =>
    (((maskSelect (fun b => b0 ≤ b ∧ b ≤ b1) row bins).sum : ℕ) : ℝ) / (b1 - b0)))

/-- The `1000 *` millisecond scaling applied to a latency vector (NaN stays
NaN, spike_analysis.py lines 531, 537, 544, 550). -/
noncomputable def scale1000 (vals : List (Option ℝ)) : List (Option ℝ) :=
  vals.map (Option.map (fun x => 1000 * x))

open Classical in
/-- The latency vector written for trial group `g` of cluster `c` by the true
onset branch of `latencies` (spike_analysis.py lines 530-533 and 543-546):
select the group's trials, keep the bins at or after onset (`bins >= 0`), then
dispatch on the baseline rate: Poisson-survival `latency_core_stats` above 2 Hz,
`latency_median` otherwise; `none` marks a runtime error inside the kernel. -/
noncomputable def latency_rows (psth : List (List (List ℕ))) (bins : List ℝ)
    (trials : List ℕ) (b0 b1 tbs : ℝ) (c g : ℕ) : Option (List (Option ℝ)) :=
  let current := maskSelect (fun t => t = g) (psth.getD c []) trials
  let anchored := current.map (fun row => maskSelect (fun b => 0 ≤ b) row bins)
  if 2 < bsl_values psth bins b0 b1 c then
    (latency_core_stats (bsl_values psth bins b0 b1 c) anchored tbs).map scale1000
  else some (scale1000 (latency_median anchored tbs))

open Classical in
/-- The latency vector recomputed for one shuffle with reference time `ref`
(spike_analysis.py lines 534-541 and 547-552): the same computation as
`latency_rows` with the bin sequence re-anchored to `bins >= ref`, under the
same baseline-rate branch. -/
noncomputable def latency_shuffled_rows (psth : List (List (List ℕ))) (bins : List ℝ)
    (trials : List ℕ) (b0 b1 tbs : ℝ) (c g : ℕ) (ref : ℝ) : Option (List (Option ℝ)) :=
  let current := maskSelect (fun t => t = g) (psth.getD c []) trials
  let anchored := current.map (fun row => maskSelect (fun b => ref ≤ b) row bins)
  if 2 < bsl_values psth bins b0 b1 c then
    (latency_core_stats (bsl_values psth bins b0 b1 c) anchored tbs).map scale1000
  else some (scale1000 (latency_median anchored tbs))

/-- The stored cell `latency[c, e]`: the masked write
`latency[idx, trials == trial] = vals` gives event `e` the entry of `vals` at
`e`'s position within its trial group. -/
noncomputable def latency_cell (psth : List (List (List ℕ))) (bins : List ℝ)
    (trials : List ℕ) (b0 b1 tbs : ℝ) (c e : ℕ) : Option (Option ℝ) :=
  (latency_rows psth bins trials b0 b1 tbs c (trials.getD e 0)).bind
    (fun v => v.get? (posInGroup trials e))

/-- The stored cell `latency_shuffled[c, e, shuffle]` for reference `ref`. -/
noncomputable def latency_shuffled_cell (psth : List (List (List ℕ))) (bins : List ℝ)
    (trials : List ℕ) (b0 b1 tbs : ℝ) (c e : ℕ) (ref : ℝ) : Option (Option ℝ) :=
  (latency_shuffled_rows psth bins trials b0 b1 tbs c (trials.getD e 0) ref).bind
    (fun v => v.get? (posInGroup trials e))

/-- The tensors stored by `latencies`. -/
structure LatencyResult where
  latency : List (List (Option ℝ))
  latency_shuffled : List (List (List (Option ℝ)))

open Classical in
/-- `latencies(bsl_window, time_bin_ms, num_shuffles)` (spike_analysis.py lines
452-552) for a single-stimulus session.  `self.NUM_STIM` is looked up first
(line 473) with no try/except, so on a fresh session the call dies with a bare
AttributeError.  `np.random.rand` is modelled by the oracle `rand c t s ∈ [0,1)`
supplying the draw for cluster `c`, trial-group index `t` and shuffle `s`,
scaled into the baseline window exactly as at lines 496-504. -/
noncomputable def latencies (st : SessionState) (bsl_window : ℝ × ℝ)
    (time_bin_ms : ℝ) (num_shuffles : ℕ) (rand : ℕ → ℕ → ℕ → ℝ) :
    Except PyError LatencyResult :=
  match st.NUM_STIM with
  | none => .error (.attributeError "NUM_STIM")
  | some _ =>
    match st.psths with
    | none => .error (.attributeError "psths")
    | some store =>
      let trials := st.trial_groups
      let trial_set := sortedUnique trials
      let time_bin_size := store.bins.getD 1 0 - store.bins.getD 0 0
      let time_bin_seconds := time_bin_ms / 1000
      let n_bins := ((store.psth.getD 0 []).getD 0 []).length
      let new_bin_number := truncToInt ((n_bins : ℝ) * time_bin_size / time_bin_seconds)
      let psth := if new_bin_number ≠ (n_bins : ℤ)
        then convert_to_new_bins store.psth new_bin_number.toNat else store.psth
      let bins := if new_bin_number ≠ (n_bins : ℤ)
        then convert_bins store.bins new_bin_number.toNat else store.bins
      let final_time_bin_size := bins.getD 1 0 - bins.getD 0 0
      let b0 := bsl_window.1
      let b1 := bsl_window.2
      let bsl_shuffled := fun (c t_number s : ℕ) => rand c t_number s * (b1 - b0) + b0
      let latencyGrid := (List.range psth.length).map (fun c =>
        (List.range trials.length).map (fun e =>
          latency_cell psth bins trials b0 b1 final_time_bin_size c e))
      let shuffledGrid := (List.range psth.length).map (fun c =>
        (List.range trials.length).map (fun e =>
          (List.range num_shuffles).map (fun s =>
            latency_shuffled_cell psth bins trials b0 b1 final_time_bin_size c e
              (bsl_shuffled c (trial_set.findIdx (fun v => v == trials.getD e 0)) s))))
      match optionSeqList (latencyGrid.map optionSeqList),
          optionSeqList (shuffledGrid.map (fun r => optionSeqList (r.map optionSeqList))) with
      | some l, some sh => .ok { latency := l, latency_shuffled := sh }
      | _, _ => .error (.unboundLocalError "n_bin")

/-!  ## Claim theorems about the derivation stages  -/

/-- A session on which no stage has run yet: `psths` and `NUM_STIM` unset. -/
def freshState : SessionState :=
  { sampling_rate := 1, raw_spike_times := [], spike_clusters := [], cluster_ids := [],
    events := [], trial_groups := [], psths := none, NUM_STIM := none }

/-- C7 counterexample: invoking `latencies` before `get_raw_psth` does abort,
but with a bare AttributeError from the `self.NUM_STIM` lookup, not with a
descriptive sequencing condition carrying a message, contrary to the claim
that every PSTH-dependent stage aborts with a descriptive sequencing error. -/
theorem latencies_before_psth_not_descriptive :
    latencies freshState (0, 1) 50 300 (fun _ _ _ => 0) = .error (.attributeError "NUM_STIM")
    ∧ ¬ ∃ msg, latencies freshState (0, 1) 50 300 (fun _ _ _ => 0)
        = .error (.exceptionError msg) := by
  have h : latencies freshState (0, 1) 50 300 (fun _ _ _ => 0)
      = .error (.attributeError "NUM_STIM") := rfl
  refine ⟨h, ?_⟩
  rintro ⟨msg, hmsg⟩
  rw [h] at hmsg
  simp at hmsg

/-- C7 (amended): invoked before `get_raw_psth` has populated the PSTH,
`get_raw_firing_rate` and `z_score_data` abort with the descriptive sequencing
Exception "Run get_raw_psth before running z_score_data", while `latencies`
also aborts before touching any data, but with a bare attribute-lookup
AttributeError rather than a descriptive sequencing message. -/
theorem sequencing_errors_amended (st : SessionState) (hp : st.psths = none)
    (hn : st.NUM_STIM = none) (tb tb' : ℝ) (frw bw zw blw : ℝ × ℝ) (mode : String)
    (bslw : Option (ℝ × ℝ)) (smt : Option ℝ) (ns : ℕ) (rand : ℕ → ℕ → ℕ → ℝ) :
    get_raw_firing_rate st tb frw mode bslw smt
        = .error (.exceptionError "Run get_raw_psth before running z_score_data")
    ∧ z_score_data st tb bw zw
        = .error (.exceptionError "Run get_raw_psth before running z_score_data")
    ∧ latencies st blw tb' ns rand = .error (.attributeError "NUM_STIM") := by
  refine ⟨?_, ?_, ?_⟩
  · simp only [get_raw_firing_rate, hp]
  · simp only [z_score_data, hp]
  · simp only [latencies, hn]

/-- Witness for the amended C7, on the fresh session. -/
theorem sequencing_errors_amended_witness :
    get_raw_firing_rate freshState 50 (0, 1) "raw" none none
        = .error (.exceptionError "Run get_raw_psth before running z_score_data")
    ∧ z_score_data freshState 50 (0, 1) (0, 1)
        = .error (.exceptionError "Run get_raw_psth before running z_score_data")
    ∧ latencies freshState (0, 1) 50 300 (fun _ _ _ => 0)
        = .error (.attributeError "NUM_STIM") :=
  sequencing_errors_amended freshState rfl rfl 50 50 (0, 1) (0, 1) (0, 1) (0, 1)
    "raw" none none 300 (fun _ _ _ => 0)

/-- A session whose PSTH stage has run: one cluster, one event, two 50 ms bins. -/
def stC6 : SessionState :=
  { sampling_rate := 1, raw_spike_times := [], spike_clusters := [], cluster_ids := [7],
    events := [0], trial_groups := [0],
    psths := some { psth := [[[1, 0]]], bins := [1, 2] }, NUM_STIM := some 1 }

/-- C6 (code bug witnessed): `smooth` without a smoothing time is rejected
up-front by a descriptive assert, but `bsl-subtracted` without a baseline
window is never validated: the source enters the rate loop and dies there with
an UnboundLocalError on the never-assigned `mean_fr`, not with an immediate
descriptive configuration error. -/
theorem get_raw_firing_rate_missing_param :
    get_raw_firing_rate stC6 1000 (0, 5) "bsl-subtracted" none none
        = .error (.unboundLocalError "mean_fr")
    ∧ get_raw_firing_rate stC6 1000 (0, 5) "smooth" none none
        = .error (.assertionError "to smooth data please give the sm_time_ms") := by
  constructor
  · simp +decide [get_raw_firing_rate, stC6, sortedUnique, exceptMapList]
  · simp +decide [get_raw_firing_rate, stC6]

lemma truncToInt_eq_ofNat (x : ℝ) (n : ℕ) (h : x = (n : ℝ)) : truncToInt x = (n : ℤ) := by
  subst h
  rw [truncToInt, if_pos (Nat.cast_nonneg n)]
  exact_mod_cast Int.floor_natCast n

/-- A session with one cluster (id 7) spiking at samples 1, 1, 3, 3 around the
single event at sample 0. -/
def stC5 : SessionState :=
  { sampling_rate := 1, raw_spike_times := [1, 1, 3, 3], spike_clusters := [7, 7, 7, 7],
    cluster_ids := [7], events := [0], trial_groups := [0], psths := none, NUM_STIM := none }

/-- C5 (code bug witnessed): the stored PSTH here has two (cluster, event, bin)
cells with more than one spike, so the claimed diagnostic is 2, but the
surfaced `multispike_bin` is 1: the source increments once per cluster having
any multi-spike cell instead of adding the number of such cells, although its
own printed message reports the value as a number of bins.  The call still
completes and stores the PSTH: the diagnostic is only reported. -/
theorem get_raw_psth_diag_counts_clusters :
    get_raw_psth stC5 (0, 4) 2000
        = .ok
          ({ stC5 with
              psths := some { psth := [[[2, 2]]], bins := [1, 3] },
              NUM_STIM := some 1 }, 1)
    ∧ multispikeCellCount [[[2, 2]]] = 2 := by
  refine ⟨?_, by decide⟩
  have t1 : truncToInt (2000 / 1000 * stC5.sampling_rate) = (2 : ℤ) :=
    truncToInt_eq_ofNat _ 2 (by norm_num [stC5])
  have t2 : truncToInt ((0 : ℝ) * stC5.sampling_rate) = (0 : ℤ) :=
    truncToInt_eq_ofNat _ 0 (by norm_num [stC5])
  have t3 : truncToInt ((4 : ℝ) * stC5.sampling_rate) = (4 : ℤ) :=
    truncToInt_eq_ofNat _ 4 (by norm_num [stC5])
  simp only [get_raw_psth, t1, t2, t3]
  rw [if_neg (by norm_num [stC5])]
  have ht : (2 : ℤ).toNat = 2 := rfl
  norm_num [stC5, npMinInt, npMaxInt, maskSelect, spike_times_to_bins, bins_sub,
    List.range_succ, multispikeCellCount, ht, List.flatMap_cons, List.flatMap_nil]

/-- The gather counterpart of a numpy masked write: the entry of
`xs[trials == g]` at event `e`'s position within its group is `xs[e]`. -/
lemma maskSelect_get_posInGroup {α : Type} (xs : List α) (ks : List ℕ) (e g : ℕ)
    (hg : ks.get? e = some g) (hlen : ks.length ≤ xs.length) :
    (maskSelect (fun t => t = g) xs ks).get? (posInGroup ks e) = xs.get? e := by
  induction ks generalizing xs e with
  | nil => simp at hg
  | cons k ks ih =>
    cases xs with
    | nil => simp at hlen
    | cons x xs =>
      cases e with
      | zero =>
        obtain rfl : k = g := by simpa using hg
        rw [posInGroup]
        simp only [List.take_zero, List.filter_nil, List.length_nil]
        rw [maskSelect, if_pos rfl]
        rfl
      | succ e =>
        have hg' : ks.get? e = some g := by simpa using hg
        have hlen' : ks.length ≤ xs.length := by simpa using hlen
        have hgdg : ks.getD e 0 = g := by
          rw [List.getD_eq_getD_get?, hg']
          rfl
        have htake : posInGroup (k :: ks) (e + 1)
            = posInGroup ks e + (if k == g then 1 else 0) := by
          rw [posInGroup, posInGroup, List.take_succ_cons, List.filter_cons]
          have hgd2 : (k :: ks).getD (e + 1) 0 = ks.getD e 0 := rfl
          rw [hgd2, hgdg]
          by_cases hk : k = g
          · simp [hk]
          · simp [hk]
        by_cases hk : k = g
        · rw [htake, if_pos (by simpa using hk)]
          rw [maskSelect, if_pos hk]
          simpa using ih xs e hg' hlen'
        · rw [htake, if_neg (by simpa using hk)]
          rw [maskSelect, if_neg hk]
          simpa using ih xs e hg' hlen'

open Classical in
/-- C3 (confirmed): the stored latency of cluster `c` at event `e` is taken
from the vector computed for `e`'s trial group, and that vector is produced by
dispatching on the cluster's baseline firing rate: above 2 Hz the Poisson
model `latency_core_stats` runs on the group's onset-anchored rows, otherwise
`latency_median` does; in the median branch the stored cell reduces to the
median model applied to event `e`'s own onset-anchored row. -/
theorem latencies_dispatch_on_baseline_rate (psth : List (List (List ℕ))) (bins : List ℝ)
    (trials : List ℕ) (b0 b1 tbs : ℝ) (c e g : ℕ)
    (hg : trials.get? e = some g) (hlen : trials.length ≤ (psth.getD c []).length) :
    latency_cell psth bins trials b0 b1 tbs c e
        = (latency_rows psth bins trials b0 b1 tbs c g).bind
            (fun v => v.get? (posInGroup trials e))
    ∧ ((2 < bsl_values psth bins b0 b1 c) →
        latency_rows psth bins trials b0 b1 tbs c g
          = (latency_core_stats (bsl_values psth bins b0 b1 c)
              ((maskSelect (fun t => t = g) (psth.getD c []) trials).map
                (fun row => maskSelect (fun b => 0 ≤ b) row bins)) tbs).map scale1000)
    ∧ (¬ (2 < bsl_values psth bins b0 b1 c) →
        latency_cell psth bins trials b0 b1 tbs c e
          = ((psth.getD c []).get? e).map (fun row =>
              Option.map (fun x => 1000 * x)
                (latency_median_trial (maskSelect (fun b => 0 ≤ b) row bins) tbs))) := by
  have hgd : trials.getD e 0 = g := by
    rw [List.getD_eq_getD_get?, hg]
    rfl
  refine ⟨by rw [latency_cell, hgd], ?_, ?_⟩
  · intro h
    simp only [latency_rows]
    rw [if_pos h]
  · intro h
    rw [latency_cell, hgd]
    simp only [latency_rows]
    rw [if_neg h, Option.some_bind]
    rw [scale1000, latency_median, List.get?_map, List.get?_map, List.get?_map,
      maskSelect_get_posInGroup (psth.getD c []) trials e g hg hlen]
    simp only [Option.map_map]
    rfl

/-- Witness for C3: a one-cluster, one-event session, on the gather conjunct. -/
theorem latencies_dispatch_on_baseline_rate_witness :
    latency_cell [[[1]]] [0.5] [0] 0 1 0.5 0 0
        = (latency_rows [[[1]]] [0.5] [0] 0 1 0.5 0 0).bind
            (fun v => v.get? (posInGroup [0] 0)) :=
  (latencies_dispatch_on_baseline_rate [[[1]]] [0.5] [0] 0 1 0.5 0 0 0 rfl
    (by decide)).1

open Classical in
/-- C4 (confirmed): a uniform draw `u ∈ [0, 1)` scaled as at lines 496-504
yields a reference time inside the baseline window, and each shuffled latency
is recomputed by the same rule with the bin sequence re-anchored to the bins at
or after that reference, under the same baseline-rate branch as the real
trial. -/
theorem latencies_shuffled_reanchored (psth : List (List (List ℕ))) (bins : List ℝ)
    (trials : List ℕ) (b0 b1 tbs u : ℝ) (c g : ℕ)
    (hu0 : 0 ≤ u) (hu1 : u < 1) (hb : b0 < b1) :
    (b0 ≤ u * (b1 - b0) + b0 ∧ u * (b1 - b0) + b0 < b1)
    ∧ ∀ ref : ℝ,
        ((2 < bsl_values psth bins b0 b1 c) →
          latency_shuffled_rows psth bins trials b0 b1 tbs c g ref
            = (latency_core_stats (bsl_values psth bins b0 b1 c)
                ((maskSelect (fun t => t = g) (psth.getD c []) trials).map
                  (fun row => maskSelect (fun b => ref ≤ b) row bins)) tbs).map scale1000)
        ∧ (¬ (2 < bsl_values psth bins b0 b1 c) →
          latency_shuffled_rows psth bins trials b0 b1 tbs c g ref
            = some (scale1000 (latency_median
                ((maskSelect (fun t => t = g) (psth.getD c []) trials).map
                  (fun row => maskSelect (fun b => ref ≤ b) row bins)) tbs))) := by
  refine ⟨⟨by nlinarith, by nlinarith⟩, ?_⟩
  intro ref
  constructor
  · intro h
    simp only [latency_shuffled_rows]
    rw [if_pos h]
  · intro h
    simp only [latency_shuffled_rows]
    rw [if_neg h]

/-- Witness for C4, on the in-window conjunct with `u = 1/2` and baseline
window `(0, 1)`. -/
theorem latencies_shuffled_reanchored_witness :
    (0 : ℝ) ≤ 1 / 2 * ((1 : ℝ) - 0) + 0 ∧ 1 / 2 * ((1 : ℝ) - 0) + 0 < 1 :=
  (latencies_shuffled_reanchored [] [] [] 0 1 1 (1 / 2) 0 0 (by norm_num) (by norm_num)
    (by norm_num)).1

lemma sum_map_div {α : Type} (l : List α) (f : α → ℝ) (d : ℝ) :
    (l.map (fun x => f x / d)).sum = (l.map f).sum / d := by
  induction l with
  | nil => simp
  | cons x xs ih => simp [ih, add_div]

open Classical in
/-- C9 (confirmed): the baseline rate steering the model choice is computed
once per cluster as the pooled mean over every trial of the stimulus — the
baseline-window counts summed per trial, divided by the baseline duration and
averaged across all trials, ignoring trial groups — and, for any trial groups
and any shuffle reference, both the true-onset and the shuffled computations of
that cluster follow the single branch this rate selects. -/
theorem baseline_rate_pooled_once (psth : List (List (List ℕ))) (bins : List ℝ)
    (trials : List ℕ) (b0 b1 tbs : ℝ) (c : ℕ) :
    bsl_values psth bins b0 b1 c
        = ((psth.getD c []).map (fun row =>
            (((maskSelect (fun b => b0 ≤ b ∧ b ≤ b1) row bins).sum : ℕ) : ℝ))).sum
          / ((b1 - b0) * ((psth.getD c []).length : ℝ))
    ∧ ∀ g g' : ℕ, ∀ ref : ℝ,
        ((2 < bsl_values psth bins b0 b1 c) →
          latency_rows psth bins trials b0 b1 tbs c g
            = (latency_core_stats (bsl_values psth bins b0 b1 c)
                ((maskSelect (fun t => t = g) (psth.getD c []) trials).map
                  (fun row => maskSelect (fun b => 0 ≤ b) row bins)) tbs).map scale1000
          ∧ latency_shuffled_rows psth bins trials b0 b1 tbs c g' ref
            = (latency_core_stats (bsl_values psth bins b0 b1 c)
                ((maskSelect (fun t => t = g') (psth.getD c []) trials).map
                  (fun row => maskSelect (fun b => ref ≤ b) row bins)) tbs).map scale1000)
        ∧ (¬ (2 < bsl_values psth bins b0 b1 c) →
          latency_rows psth bins trials b0 b1 tbs c g
            = some (scale1000 (latency_median
                ((maskSelect (fun t => t = g) (psth.getD c []) trials).map
                  (fun row => maskSelect (fun b => 0 ≤ b) row bins)) tbs))
          ∧ latency_shuffled_rows psth bins trials b0 b1 tbs c g' ref
            = some (scale1000 (latency_median
                ((maskSelect (fun t => t = g') (psth.getD c []) trials).map
                  (fun row => maskSelect (fun b => ref ≤ b) row bins)) tbs))) := by
  constructor
  · rw [bsl_values, npMean, sum_map_div, div_div, List.length_map]
  · intro g g' ref
    constructor
    · intro h
      constructor
      · simp only [latency_rows]
        rw [if_pos h]
      · simp only [latency_shuffled_rows]
        rw [if_pos h]
    · intro h
      constructor
      · simp only [latency_rows]
        rw [if_neg h]
      · simp only [latency_shuffled_rows]
        rw [if_neg h]

/-- Witness for C9: a one-cluster session with a silent baseline, on the
median side of the branch-constancy conjunct. -/
theorem baseline_rate_pooled_once_witness :
    latency_rows [[[0]]] [1] [0] 0 1 1 0 0
        = some (scale1000 (latency_median
            ((maskSelect (fun t => t = 0) (([[[0]]] : List (List (List ℕ))).getD 0 []) [0]).map
              (fun row => maskSelect (fun b => (0 : ℝ) ≤ b) row [1])) 1))
    ∧ latency_shuffled_rows [[[0]]] [1] [0] 0 1 1 0 0 (1 / 2)
        = some (scale1000 (latency_median
            ((maskSelect (fun t => t = 0) (([[[0]]] : List (List (List ℕ))).getD 0 []) [0]).map
              (fun row => maskSelect (fun b => (1 / 2 : ℝ) ≤ b) row [1])) 1)) :=
  ((baseline_rate_pooled_once [[[0]]] [1] [0] 0 1 1 0).2 0 0 (1 / 2)).2
    (by norm_num [bsl_values, npMean, maskSelect])

end SpikeAnalysisModel
